import Mathlib

/-!
Verification model of the Rematierras auction scraper
(src/backend/remates_scraper/{client,parser,main}.py).

Python strings are modelled as List Char. The regular-expression patterns
used by the source are modelled by a small backtracking matcher over a
pattern AST restricted to the constructs those patterns use: a
(possibly case-insensitive) literal, a greedy character-class star or plus,
and a lazy class plus. Greedy quantifiers prefer the longest match and
backtrack downwards, lazy ones prefer the shortest and extend upwards,
and the search tries start positions left to right, exactly as the Python
re module does for these patterns.
-/

namespace Rematierras

/-- Python re whitespace class, restricted to ASCII. All texts reaching the
field extractor were ASCII-folded first, and every concrete input in this
file is ASCII, so the non-ASCII whitespace code points never occur. -/
def pyWs (c : Char) : Bool :=
  c == ' ' || c == '\t' || c == '\n' || c == '\r' || c == '\x0b' || c == '\x0c'

/-- Case folding used for case-insensitive matching of ASCII literals. -/
def charMatchCI (ci : Bool) (a b : Char) : Bool :=
  if ci then a.toLower == b.toLower else a == b

/-- Consume a literal (case-insensitively when ci is true) from the front of
the input, returning the remainder on success. -/
def dropLit (ci : Bool) : List Char → List Char → Option (List Char)
  | [], s => some s
  | _ :: _, [] => none
  | c :: cs, x :: xs => if charMatchCI ci c x then dropLit ci cs xs else none

/-- Length of the maximal prefix whose characters satisfy p. -/
def countWhile (p : Char → Bool) : List Char → Nat
  | [] => 0
  | c :: cs => if p c then countWhile p cs + 1 else 0

/-- Backtracking helper for greedy quantifiers: try k, k-1, ..., 0 and
return the first success. -/
def tryFrom (f : Nat → Option α) : Nat → Option α
  | 0 => f 0
  | k + 1 =>
    match f (k + 1) with
    | some v => some v
    | none => tryFrom f k

/-- Backtracking helper for lazy quantifiers: try i, i+1, ... for fuel
steps and return the first success. -/
def tryAsc (f : Nat → Option α) : Nat → Nat → Option α
  | _, 0 => none
  | i, fuel + 1 =>
    match f i with
    | some v => some v
    | none => tryAsc f (i + 1) fuel

/-- Pattern AST covering the regular expressions appearing in the source:
literals, greedy class star, greedy class plus and lazy class plus, each
optionally capturing. -/
inductive RE where
  | lit (cs : List Char) (ci : Bool)
  | clsStar (p : Char → Bool) (cap : Bool)
  | clsPlus (p : Char → Bool) (cap : Bool)
  | clsPlusLazy (p : Char → Bool) (cap : Bool)

/-- Match a pattern sequence against a prefix of the input, returning the
captured groups in order. Greedy quantifiers try longest first, lazy ones
shortest first, with full backtracking, as the Python re engine does. -/
def matchSeq : List RE → List Char → Option (List (List Char))
  | [], _ => some []
  | .lit cs ci :: rest, s =>
    match dropLit ci cs s with
    | none => none
    | some s2 => matchSeq rest s2
  | .clsStar p cap :: rest, s =>
    tryFrom
      (fun k => (matchSeq rest (s.drop k)).map
        (fun gs => if cap then s.take k :: gs else gs))
      (countWhile p s)
  | .clsPlus p cap :: rest, s =>
    match countWhile p s with
    | 0 => none
    | m + 1 =>
      tryFrom
        (fun j => (matchSeq rest (s.drop (j + 1))).map
          (fun gs => if cap then s.take (j + 1) :: gs else gs))
        m
  | .clsPlusLazy p cap :: rest, s =>
    tryAsc
      (fun k => (matchSeq rest (s.drop k)).map
        (fun gs => if cap then s.take k :: gs else gs))
      1 (countWhile p s)

/-- Model of re.search: try each start position left to right and return
the groups of the first position where the pattern matches. -/
def reSearch (pat : List RE) : List Char → Option (List (List Char))
  | [] => matchSeq pat []
  | c :: rest =>
    match matchSeq pat (c :: rest) with
    | some gs => some gs
    | none => reSearch pat rest

/-- Python str.strip of leading whitespace. -/
def pyLStrip (s : List Char) : List Char := s.dropWhile pyWs

/-- Python str.strip of trailing whitespace: drop the maximal whitespace
suffix. -/
def pyRStrip (s : List Char) : List Char := (s.reverse.dropWhile pyWs).reverse

/-- Python str.strip. -/
def pyStrip (s : List Char) : List Char := pyRStrip (pyLStrip s)

/-- Numeric value of a decimal digit character. -/
def digitVal (c : Char) : Nat := c.toNat - 48

/-- Value of a nonempty string of decimal digits, as Python int() parses it. -/
def natOfDigits (s : List Char) : Nat := s.foldl (fun acc c => 10 * acc + digitVal c) 0

/-!
Model of parser.py. The function extract_text joins the per-page texts
with newlines and hands the result to the normalization pipeline
to_ascii. Unicode NFKD normalization is kept abstract (an arbitrary
function on texts); NFKD is the identity on pure-ASCII text, which is
what every concrete input below is. The ascii/ignore encode-decode step
keeps exactly the characters with code point at most 127 and drops the
rest, which is what bytes efficiency aside encode("ascii", "ignore")
does.
-/

/-- Model of encode("ascii", "ignore").decode(): keep code points <= 127. -/
def asciiIgnore (s : List Char) : List Char := s.filter (fun c => decide (c.toNat ≤ 127))

/-- Model of replace("\r", "\n"). -/
def replaceCR (s : List Char) : List Char := s.map (fun c => if c == '\r' then '\n' else c)

/-- Model of re.sub("\n{2,}", "\n", s): keep the first newline of every
run of consecutive newlines and drop the others. The flag records
whether the previous kept character position sits inside a newline run. -/
def collapseNLAux : Bool → List Char → List Char
  | _, [] => []
  | prevNL, c :: rest =>
    if c == '\n' then
      if prevNL then collapseNLAux true rest
      else '\n' :: collapseNLAux true rest
    else c :: collapseNLAux false rest

/-- Model of re.sub("\n{2,}", "\n", s). -/
def collapseNL (s : List Char) : List Char := collapseNLAux false s

/-- Model of parser._to_ascii, with the NFKD normalization abstract. -/
def to_ascii (nfkd : List Char → List Char) (text : List Char) : List Char :=
  pyStrip (collapseNL (replaceCR (asciiIgnore (nfkd text))))

/-- Join page texts with newline separators, as "\n".join does. -/
def joinNL : List (List Char) → List Char
  | [] => []
  | [p] => p
  | p :: q :: rest => p ++ '\n' :: joinNL (q :: rest)

/-- Model of parser.extract_text, with per-page pdf text extraction and
NFKD normalization abstract. -/
def extract_text (nfkd : List Char → List Char) (pages : List (List Char)) : List Char :=
  to_ascii nfkd (joinNL pages)

/-- True when some character of the text lies outside the ASCII range. -/
def allAsciiB (s : List Char) : Bool := s.all (fun c => decide (c.toNat ≤ 127))

/-- True when two consecutive newline characters occur somewhere. -/
def hasDoubleNL : List Char → Bool
  | a :: b :: rest => (a == '\n' && b == '\n') || hasDoubleNL (b :: rest)
  | _ => false

/-- True when the text neither starts nor ends with whitespace. -/
def trimmedB (s : List Char) : Bool :=
  (match s.head? with
   | some c => !pyWs c
   | none => true) &&
  (match s.getLast? with
   | some c => !pyWs c
   | none => true)

/-!
Date and time parsing. parser._parse_datetime tries the formats
"%d/%m/%Y %H:%M", "%d-%m-%Y %H:%M" and "%d/%m/%Y" in order with
datetime.strptime. The scanners below follow the regular expressions the
CPython _strptime module compiles for each directive, in their exact
alternation order, and the value-range validation that constructing the
datetime performs afterwards.
-/

structure PyDateTime where
  year : Nat
  month : Nat
  day : Nat
  hour : Nat
  minute : Nat
deriving DecidableEq

/-- Directive %d, regex 3[01]|[12]\d|0[1-9]|[1-9]. -/
def scanDay : List Char → Option (Nat × List Char)
  | c1 :: c2 :: rest =>
    if c1 = '3' ∧ (c2 = '0' ∨ c2 = '1') then some (30 + digitVal c2, rest)
    else if (c1 = '1' ∨ c1 = '2') ∧ c2.isDigit then some (10 * digitVal c1 + digitVal c2, rest)
    else if c1 = '0' ∧ ('1' ≤ c2 ∧ c2 ≤ '9') then some (digitVal c2, rest)
    else if '1' ≤ c1 ∧ c1 ≤ '9' then some (digitVal c1, c2 :: rest)
    else none
  | [c1] => if '1' ≤ c1 ∧ c1 ≤ '9' then some (digitVal c1, []) else none
  | [] => none

/-- Directive %m, regex 1[0-2]|0[1-9]|[1-9]. -/
def scanMonth : List Char → Option (Nat × List Char)
  | c1 :: c2 :: rest =>
    if c1 = '1' ∧ ('0' ≤ c2 ∧ c2 ≤ '2') then some (10 + digitVal c2, rest)
    else if c1 = '0' ∧ ('1' ≤ c2 ∧ c2 ≤ '9') then some (digitVal c2, rest)
    else if '1' ≤ c1 ∧ c1 ≤ '9' then some (digitVal c1, c2 :: rest)
    else none
  | [c1] => if '1' ≤ c1 ∧ c1 ≤ '9' then some (digitVal c1, []) else none
  | [] => none

/-- Directive %Y, regex \d\d\d\d (exactly four digits). -/
def scanYear : List Char → Option (Nat × List Char)
  | a :: b :: c :: d :: rest =>
    if a.isDigit ∧ b.isDigit ∧ c.isDigit ∧ d.isDigit then
      some (1000 * digitVal a + 100 * digitVal b + 10 * digitVal c + digitVal d, rest)
    else none
  | _ => none

/-- Directive %H, regex 2[0-3]|[01]\d|\d. -/
def scanHour : List Char → Option (Nat × List Char)
  | c1 :: c2 :: rest =>
    if c1 = '2' ∧ ('0' ≤ c2 ∧ c2 ≤ '3') then some (20 + digitVal c2, rest)
    else if (c1 = '0' ∨ c1 = '1') ∧ c2.isDigit then some (10 * digitVal c1 + digitVal c2, rest)
    else if c1.isDigit then some (digitVal c1, c2 :: rest)
    else none
  | [c1] => if c1.isDigit then some (digitVal c1, []) else none
  | [] => none

/-- Directive %M, regex [0-5]\d|\d. -/
def scanMinute : List Char → Option (Nat × List Char)
  | c1 :: c2 :: rest =>
    if ('0' ≤ c1 ∧ c1 ≤ '5') ∧ c2.isDigit then some (10 * digitVal c1 + digitVal c2, rest)
    else if c1.isDigit then some (digitVal c1, c2 :: rest)
    else none
  | [c1] => if c1.isDigit then some (digitVal c1, []) else none
  | [] => none

/-- One exact literal character of a format string. -/
def scanChar (c : Char) : List Char → Option (List Char)
  | x :: rest => if x = c then some rest else none
  | [] => none

/-- Whitespace inside a strptime format matches one or more whitespace
characters. -/
def scanWs1 (s : List Char) : Option (List Char) :=
  match countWhile pyWs s with
  | 0 => none
  | m + 1 => some (s.drop (m + 1))

def isLeap (y : Nat) : Bool := (y % 4 == 0 && y % 100 != 0) || y % 400 == 0

def daysInMonth (y m : Nat) : Nat :=
  if m = 2 then (if isLeap y then 29 else 28)
  else if m = 4 ∨ m = 6 ∨ m = 9 ∨ m = 11 then 30
  else 31

/-- Model of datetime.strptime for a "%d<sep>%m<sep>%Y" format, followed
by " %H:%M" when withTime is set. The whole input must be consumed,
and constructing the datetime validates the calendar date. -/
def strptime_dmy (sep : Char) (withTime : Bool) (s : List Char) : Option PyDateTime :=
  match scanDay s with
  | none => none
  | some (d, s1) =>
    match scanChar sep s1 with
    | none => none
    | some s2 =>
      match scanMonth s2 with
      | none => none
      | some (m, s3) =>
        match scanChar sep s3 with
        | none => none
        | some s4 =>
          match scanYear s4 with
          | none => none
          | some (y, s5) =>
            if withTime then
              match scanWs1 s5 with
              | none => none
              | some s6 =>
                match scanHour s6 with
                | none => none
                | some (h, s7) =>
                  match scanChar ':' s7 with
                  | none => none
                  | some s8 =>
                    match scanMinute s8 with
                    | none => none
                    | some (mi, s9) =>
                      if s9 = [] ∧ 1 ≤ y ∧ d ≤ daysInMonth y m then
                        some ⟨y, m, d, h, mi⟩
                      else none
            else
              if s5 = [] ∧ 1 ≤ y ∧ d ≤ daysInMonth y m then
                some ⟨y, m, d, 0, 0⟩
              else none

/-- Model of parser._parse_datetime: a falsy value gives None, otherwise
the formats "%d/%m/%Y %H:%M", "%d-%m-%Y %H:%M", "%d/%m/%Y" are tried in
order and the first success wins. -/
def parse_datetime (value : Option (List Char)) : Option PyDateTime :=
  match value with
  | none => none
  | some v =>
    if v = [] then none
    else
      match strptime_dmy '/' true v with
      | some dt => some dt
      | none =>
        match strptime_dmy '-' true v with
        | some dt => some dt
        | none => strptime_dmy '/' false v

/-!
Scalar field extraction. parser._search applies a case-insensitive
re.search and strips the first group. The minimum-value pattern captures
a possibly empty run of digits, dots and whitespace.
-/

/-- Model of parser._search for a labeled-field pattern: the group is
stripped; the result is None exactly when the pattern does not match. -/
def search_group (pat : List RE) (text : List Char) : Option (List Char) :=
  (reSearch pat text).map (fun gs => pyStrip (gs.headD []))

/-- Character class of a . in the patterns used (anything but newline). -/
def notNL (c : Char) : Bool := c != '\n'

/-- Labeled-field pattern "<Label>:\s*(.+)" with re.IGNORECASE; the label
here includes the trailing colon. -/
def labeledPat (label : List Char) : List RE :=
  [.lit label true, .clsStar pyWs false, .clsPlus notNL true]

/-- Character class [0-9\.\s] of the minimum-value pattern. -/
def valCls (c : Char) : Bool := c.isDigit || c == '.' || pyWs c

def valorLabel : List Char := ("Valor Minimo (pesos):").data

/-- Pattern "Valor Minimo \(pesos\):\s*([0-9\.\s]*)" with re.IGNORECASE. -/
def valorPat : List RE :=
  [.lit valorLabel true, .clsStar pyWs false, .clsStar valCls true]

/-- The labeled minimum-value line of the testable property. -/
def valorLine : List Char := ("Valor Minimo (pesos): 1.234.567").data

/-- The dotted number of that line. -/
def valorNumber : List Char := ("1.234.567").data

/-- Model of parser._parse_valor_minimo: falsy values give None, all
non-digits are stripped, an all-non-digit value gives None, otherwise the
digits parse as an integer. -/
def parse_valor_minimo (value : Option (List Char)) : Option Nat :=
  match value with
  | none => none
  | some s =>
    if s = [] then none
    else
      let digits := s.filter Char.isDigit
      if digits = [] then none else some (natOfDigits digits)

/-- Model of parse_remate_pdf lines 112-113: search the minimum-value
pattern and feed the first group (or None) to _parse_valor_minimo. -/
def valor_minimo_of (text : List Char) : Option Nat :=
  match reSearch valorPat text with
  | some gs => parse_valor_minimo (some (gs.headD []))
  | none => parse_valor_minimo none

/-- Combined single-line pattern "Region:\s*(.+?)\s+Comuna:\s*(.+)" with
re.IGNORECASE. -/
def combinedRegionPat : List RE :=
  [.lit (("Region:").data) true, .clsStar pyWs false, .clsPlusLazy notNL true,
   .clsPlus pyWs false, .lit (("Comuna:").data) true, .clsStar pyWs false,
   .clsPlus notNL true]

def regionLabeledPat : List RE := labeledPat (("Region:").data)

def comunaLabeledPat : List RE := labeledPat (("Comuna:").data)

/-- Python truthiness of an optional string: None and the empty string
are falsy. -/
def truthyS : Option (List Char) → Bool
  | none => false
  | some s => !s.isEmpty

/-- Model of parse_remate_pdf lines 98-106: the combined pattern is tried
first; when the resulting region (resp. comuna) is falsy, it falls back
independently to its own labeled-field pattern. -/
def region_comuna (text : List Char) : Option (List Char) × Option (List Char) :=
  let m := reSearch combinedRegionPat text
  let region0 : Option (List Char) := m.map (fun gs => pyStrip (gs.headD []))
  let comuna0 : Option (List Char) := m.map (fun gs => pyStrip ((gs.drop 1).headD []))
  let region := if truthyS region0 then region0 else search_group regionLabeledPat text
  let comuna := if truthyS comuna0 then comuna0 else search_group comunaLabeledPat text
  (region, comuna)

/-!
Model of client.py. The BoletinClient keeps a base url and, after
bootstrap, the two CSRF tokens scraped from the landing page. The
DataTables iterator issues one POST per page; requests are modelled by
the (start, draw) cursor pair they carry, and the remote server by a
function from that pair to the entry list of the JSON response, so the
trace below records exactly which requests are issued and what each
returned.
-/

def baseUrl : List Char := ("https://boletinconcursal.cl").data

inductive ScraperError where
  | authenticationError
deriving DecidableEq

structure ClientTokens where
  csrf_token : List Char
  csrf_header_name : List Char
deriving DecidableEq

def notGT (c : Char) : Bool := c != '>'

def notQuote (c : Char) : Bool := c != '"'

/-- Pattern <meta[^>]*name="_csrf"[^>]*content="([^"]+)"[^>]*> (case
sensitive, as in the source). -/
def csrfTokenPat : List RE :=
  [.lit (("<meta").data) false, .clsStar notGT false,
   .lit (("name=\"_csrf\"").data) false, .clsStar notGT false,
   .lit (("content=\"").data) false, .clsPlus notQuote true,
   .lit (("\"").data) false, .clsStar notGT false, .lit ((">").data) false]

/-- Pattern <meta[^>]*name="_csrf_header"[^>]*content="([^"]+)"[^>]*>. -/
def csrfHeaderPat : List RE :=
  [.lit (("<meta").data) false, .clsStar notGT false,
   .lit (("name=\"_csrf_header\"").data) false, .clsStar notGT false,
   .lit (("content=\"").data) false, .clsPlus notQuote true,
   .lit (("\"").data) false, .clsStar notGT false, .lit ((">").data) false]

/-- Model of BoletinClient.bootstrap applied to the landing page body:
both meta tokens must be located by pattern match, otherwise the run
fails with the authentication error (a RuntimeError in the source). -/
def bootstrap (html : List Char) : Except ScraperError ClientTokens :=
  match reSearch csrfTokenPat html, reSearch csrfHeaderPat html with
  | some (t :: _), some (h :: _) => .ok ⟨t, h⟩
  | _, _ => .error .authenticationError

/-- Model of BoletinClient._csrf_headers. -/
def csrf_headers (tk : ClientTokens) : List (List Char × List Char) :=
  [(tk.csrf_header_name, tk.csrf_token),
   (("X-Requested-With").data, ("XMLHttpRequest").data),
   (("Referer").data, baseUrl ++ ("/boletin/remates").data),
   (("Origin").data, baseUrl)]

/-- One listing entry of the paginated endpoint, with the fields main.py
reads. A missing key is None. The publication date is kept as the raw
string of the response. -/
structure Entry where
  codigoValidacion : Option (List Char)
  fchPublicacion : Option (List Char)
  deudorNombre : Option (List Char)
  entePublicador : Option (List Char)
  tipoProcedimiento : Option (List Char)
  procedimiento : Option (List Char)
deriving DecidableEq

/-- Model of BoletinClient.iter_pages, with fuel bounding the number of
requests considered. Each element of the trace is one issued POST,
recorded as its (start, draw) cursor together with the data array of the
response. The loop requests a page, stops if its entry list is empty
(that page is then not yielded), and otherwise yields it and advances
start by the page length and draw by one. -/
def iter_pages_trace (respond : Nat → Nat → List Entry) (L : Nat) :
    Nat → Nat → Nat → List ((Nat × Nat) × List Entry)
  | _, _, 0 => []
  | start, draw, fuel + 1 =>
    let entries := respond start draw
    if entries = [] then [((start, draw), entries)]
    else ((start, draw), entries) :: iter_pages_trace respond L (start + L) (draw + 1) fuel

/-- The pages iter_pages actually yields: the requested pages whose entry
list is nonempty. -/
def iter_pages_yielded (respond : Nat → Nat → List Entry) (L : Nat)
    (start draw fuel : Nat) : List ((Nat × Nat) × List Entry) :=
  (iter_pages_trace respond L start draw fuel).filter (fun pr => !pr.2.isEmpty)

/-!
Model of main.py lines 421-517. Calendar dates are represented by the
numeral key year*10000 + month*100 + day, which is strictly monotone in
the chronological order on valid dates, so date comparisons in the
source map to Nat comparisons on keys. The per-entry PDF download plus
parse is abstracted by a function from the validation code to an
optional detail record, None standing for the exception path.
-/

/-- Model of datetime.strptime(value, "%Y-%m-%d").date(), returning the
numeral key of the date, or None when parsing fails (the source treats a
KeyError for a missing field the same way, via Option.bind below). -/
def strptime_iso (s : List Char) : Option Nat :=
  match scanYear s with
  | none => none
  | some (y, s1) =>
    match scanChar '-' s1 with
    | none => none
    | some s2 =>
      match scanMonth s2 with
      | none => none
      | some (m, s3) =>
        match scanChar '-' s3 with
        | none => none
        | some s4 =>
          match scanDay s4 with
          | none => none
          | some (d, s5) =>
            if s5 = [] ∧ 1 ≤ y ∧ d ≤ daysInMonth y m then
              some (y * 10000 + m * 100 + d)
            else none

/-- Publication-date key of an entry, None when absent or unparsable. -/
def entryDateKey (e : Entry) : Option Nat :=
  match e.fchPublicacion with
  | none => none
  | some s => strptime_iso s

/-- Detail record parse_remate_pdf assembles from a notice PDF. -/
structure RemateDetail where
  codigo_validacion : List Char
  fecha_remate : Option PyDateTime
  tipo_procedimiento : Option (List Char)
  rol_causa : Option (List Char)
  tribunal : Option (List Char)
  deudor : Option (List Char)
  deudor_rut : Option (List Char)
  liquidador : Option (List Char)
  region : Option (List Char)
  comuna : Option (List Char)
  direccion : Option (List Char)
  descripcion : Option (List Char)
  tipo_bienes : Option (List Char)
  valor_minimo : Option Nat
  comision : Option (List Char)
  raw_text : List Char
deriving DecidableEq

/-- Final persisted auction record (storage.RemateRecord). The
publication date is its numeral key. -/
structure RemateRecord where
  codigo_validacion : List Char
  tipo_bien : List Char
  fecha_publicacion : Nat
  fecha_remate : Option PyDateTime
  tipo_procedimiento : Option (List Char)
  rol_causa : Option (List Char)
  tribunal : Option (List Char)
  deudor_nombre : Option (List Char)
  deudor_rut : Option (List Char)
  liquidador : Option (List Char)
  region : Option (List Char)
  comuna : Option (List Char)
  direccion : Option (List Char)
  descripcion : Option (List Char)
  tipo_bienes : Option (List Char)
  valor_minimo : Option Nat
  comision : Option (List Char)
  ente_publicador : Option (List Char)
  procedimiento : Option (List Char)
  fuente_url : List Char
deriving DecidableEq

/-- Python x or y on optional strings: the left value wins when truthy
(present and nonempty), otherwise the right value is taken. -/
def pyOrElse (a b : Option (List Char)) : Option (List Char) :=
  match a with
  | some s => if s = [] then b else some s
  | none => b

/-- Record assembly of main.py lines 481-502. -/
def mkRecord (codigo tipo_bien : List Char) (fecha : Nat) (e : Entry)
    (detail : RemateDetail) : RemateRecord :=
  ⟨codigo, tipo_bien, fecha, detail.fecha_remate,
   pyOrElse detail.tipo_procedimiento e.tipoProcedimiento,
   detail.rol_causa, detail.tribunal,
   pyOrElse detail.deudor e.deudorNombre,
   detail.deudor_rut, detail.liquidador, detail.region, detail.comuna,
   detail.direccion, detail.descripcion, detail.tipo_bienes,
   detail.valor_minimo, detail.comision, e.entePublicador, e.procedimiento,
   ("https://boletinconcursal.cl/boletin/downloadDocumentoByCodigo?codigoValidacion=").data
     ++ codigo⟩

/-- Run configuration: the effective lower bound and upper bound of the
date window, the result-count ceiling, and the abstracted PDF pipeline
(download_pdf followed by parse_remate_pdf; None is the exception path). -/
structure CrawlConfig where
  effectiveStart : Option Nat
  endDate : Option Nat
  limit : Option Nat
  pdfOf : List Char → Option RemateDetail

/-- Crawl state: collected records and the set of seen validation codes. -/
structure CrawlSt where
  records : List RemateRecord
  seen : List (List Char)
deriving DecidableEq

/-- Python truthiness of args.limit combined with len(records) >= limit. -/
def limitHit (limit : Option Nat) (n : Nat) : Bool :=
  match limit with
  | none => false
  | some l => decide (0 < l) && decide (l ≤ n)

/-- The per-entry loop of main.py lines 456-507 over the entries of one
page. Returns the updated state, the count of entries skipped because
their publication date precedes the window lower bound, and whether the
inner result-ceiling break fired. -/
def process_entries (cfg : CrawlConfig) (tipo_bien : List Char) :
    List Entry → CrawlSt → Nat → CrawlSt × Nat × Bool
  | [], st, tooOld => (st, tooOld, false)
  | e :: rest, st, tooOld =>
    match e.codigoValidacion with
    | none => process_entries cfg tipo_bien rest st tooOld
    | some c =>
      if c = [] then process_entries cfg tipo_bien rest st tooOld
      else if c ∈ st.seen then process_entries cfg tipo_bien rest st tooOld
      else
        match entryDateKey e with
        | none => process_entries cfg tipo_bien rest st tooOld
        | some fecha =>
          if (match cfg.effectiveStart with
              | some lb => decide (fecha < lb)
              | none => false) then
            process_entries cfg tipo_bien rest st (tooOld + 1)
          else if (match cfg.endDate with
                   | some ub => decide (ub < fecha)
                   | none => false) then
            process_entries cfg tipo_bien rest st tooOld
          else
            match cfg.pdfOf c with
            | none => process_entries cfg tipo_bien rest st tooOld
            | some detail =>
              if limitHit cfg.limit
                  (st.records ++ [mkRecord c tipo_bien fecha e detail]).length then
                (⟨st.records ++ [mkRecord c tipo_bien fecha e detail], st.seen ++ [c]⟩,
                 tooOld, true)
              else
                process_entries cfg tipo_bien rest
                  ⟨st.records ++ [mkRecord c tipo_bien fecha e detail], st.seen ++ [c]⟩
                  tooOld

/-- The page loop of main.py lines 450-512 for one endpoint, driven by
iter_pages. Returns the final state and the trace of issued (start, draw)
requests. After processing a page the loop breaks when the result
ceiling is reached, or when the lower bound is set and every entry of the
page was counted too old. -/
def crawl_endpoint (respond : Nat → Nat → List Entry) (cfg : CrawlConfig)
    (tipo_bien : List Char) (L : Nat) :
    Nat → Nat → CrawlSt → Nat → CrawlSt × List (Nat × Nat)
  | _, _, st, 0 => (st, [])
  | start, draw, st, fuel + 1 =>
    if respond start draw = [] then (st, [(start, draw)])
    else
      if limitHit cfg.limit
          (process_entries cfg tipo_bien (respond start draw) st 0).1.records.length then
        ((process_entries cfg tipo_bien (respond start draw) st 0).1, [(start, draw)])
      else if cfg.effectiveStart.isSome &&
          decide ((process_entries cfg tipo_bien (respond start draw) st 0).2.1 =
            (respond start draw).length) then
        ((process_entries cfg tipo_bien (respond start draw) st 0).1, [(start, draw)])
      else
        ((crawl_endpoint respond cfg tipo_bien L (start + L) (draw + 1)
            (process_entries cfg tipo_bien (respond start draw) st 0).1 fuel).1,
         (start, draw) ::
           (crawl_endpoint respond cfg tipo_bien L (start + L) (draw + 1)
             (process_entries cfg tipo_bien (respond start draw) st 0).1 fuel).2)

/-- The endpoint loop of main.py lines 445-515: the muebles endpoint then
the inmuebles endpoint, sharing records and seen codes, with the outer
result-ceiling break in between. The server is a function from endpoint
path and cursor to the entry list of the response. -/
def crawl_run (respond : List Char → Nat → Nat → List Entry) (cfg : CrawlConfig)
    (L fuel : Nat) : CrawlSt :=
  if limitHit cfg.limit
      ((crawl_endpoint (respond (("/boletin/getRMP/").data)) cfg
        (("mueble").data) L 0 1 ⟨[], []⟩ fuel).1.records.length) then
    (crawl_endpoint (respond (("/boletin/getRMP/").data)) cfg
      (("mueble").data) L 0 1 ⟨[], []⟩ fuel).1
  else
    (crawl_endpoint (respond (("/boletin/getRIP/").data)) cfg
      (("inmueble").data) L 0 1
      (crawl_endpoint (respond (("/boletin/getRMP/").data)) cfg
        (("mueble").data) L 0 1 ⟨[], []⟩ fuel).1 fuel).1

/-- Python string comparison (code point lexicographic), as list.sort
compares the codigo_validacion tie-break key. -/
def codeLeB : List Char → List Char → Bool
  | [], _ => true
  | _ :: _, [] => false
  | a :: as_, b :: bs =>
    if a < b then true else if b < a then false else codeLeB as_ bs

/-- Sort key comparison of main.py line 517: (fecha_publicacion,
codigo_validacion) compared lexicographically. -/
def recKeyLe (a b : RemateRecord) : Prop :=
  a.fecha_publicacion < b.fecha_publicacion ∨
    (a.fecha_publicacion = b.fecha_publicacion ∧
      codeLeB a.codigo_validacion b.codigo_validacion = true)

/-- The descending relation records.sort(key=..., reverse=True) sorts by. -/
def recDesc (a b : RemateRecord) : Prop := recKeyLe b a

instance : DecidableRel recKeyLe := fun a b => by
  unfold recKeyLe; infer_instance

instance : DecidableRel recDesc := fun a b => by
  unfold recDesc; infer_instance

/-- Model of records.sort(key=lambda item: (item.fecha_publicacion,
item.codigo_validacion), reverse=True) at main.py line 517: a stable sort
into descending key order. -/
def sort_records (rs : List RemateRecord) : List RemateRecord :=
  List.insertionSort recDesc rs

/-- An entry is counted too old by the per-page loop exactly when it has a
fresh nonempty validation code, a parsable publication date, and that
date precedes the window lower bound. -/
def freshTooOld (st : CrawlSt) (lb : Nat) (e : Entry) : Bool :=
  match e.codigoValidacion with
  | none => false
  | some c =>
    !decide (c = []) && !decide (c ∈ st.seen) &&
      (match entryDateKey e with
       | none => false
       | some dk => decide (dk < lb))

/-!
Concrete instances used by witnesses and counterexamples.
-/

def exEntry : Entry := ⟨none, none, none, none, none, none⟩

/-- Server answering every page request with one entry. -/
def respConst : Nat → Nat → List Entry := fun _ _ => [exEntry]

/-- Server whose first page has one entry and whose second page is empty. -/
def respOnce : Nat → Nat → List Entry := fun s _ => if s = 0 then [exEntry] else []

def exDetail : RemateDetail :=
  ⟨("X").data, none, none, none, none, none, none, none, none, none, none,
   none, none, none, none, []⟩

def eX1 : Entry := ⟨some (("X").data), some (("2020-05-05").data), none, none, none, none⟩

def eX2 : Entry := ⟨some (("X").data), some (("2020-06-06").data), none, none, none, none⟩

def eAnew : Entry := ⟨some (("A").data), some (("2025-03-01").data), none, none, none, none⟩

def eAold : Entry := ⟨some (("A").data), some (("2020-01-01").data), none, none, none, none⟩

def eBold : Entry := ⟨some (("B").data), some (("2020-01-01").data), none, none, none, none⟩

/-- Configuration with window lower bound 2025-01-01, no upper bound, no
result ceiling, and a PDF pipeline that always succeeds. -/
def cfgLB : CrawlConfig := ⟨some 20250101, none, none, fun _ => some exDetail⟩

/-- Run in which the validation code X appears in two listing entries of
the muebles endpoint, both published before the window lower bound. -/
def respondC3 : List Char → Nat → Nat → List Entry := fun ep s d =>
  if ep = ("/boletin/getRMP/").data ∧ s = 0 ∧ d = 1 then [eX1, eX2] else []

/-- Endpoint whose first page holds an in-window entry with code A and
whose second page holds only entries published before the lower bound,
one of them carrying the already-seen code A. -/
def respondC4 : Nat → Nat → List Entry := fun s d =>
  if s = 0 ∧ d = 1 then [eAnew]
  else if s = 100 ∧ d = 2 then [eAold, eBold]
  else []

/-- Endpoint whose every page consists of fresh too-old entries. -/
def respAllOld : Nat → Nat → List Entry := fun _ _ => [eAold, eBold]

def html0 : List Char :=
  ("<meta name=\"_csrf\" content=\"T1\"/><meta name=\"_csrf_header\" content=\"X-CSRF\"/>").data

/-!
Theorems. Helper lemmas come first, then one theorem per claim, each with
its witness or counterexample where required.
-/

theorem tryFrom_first {α : Type} (f : Nat → Option α) (k : Nat) (v : α)
    (h : f k = some v) : tryFrom f k = some v := by
  cases k with
  | zero => simpa [tryFrom] using h
  | succ m => simp [tryFrom, h]

theorem take_countWhile (p : Char → Bool) (s : List Char) :
    s.take (countWhile p s) = s.takeWhile p := by
  induction s with
  | nil => rfl
  | cons c cs ih =>
    by_cases h : p c
    · simp [countWhile, h, List.takeWhile_cons, ih]
    · simp [countWhile, h, List.takeWhile_cons]

theorem drop_countWhile (p : Char → Bool) (s : List Char) :
    s.drop (countWhile p s) = s.dropWhile p := by
  induction s with
  | nil => rfl
  | cons c cs ih =>
    by_cases h : p c
    · simp [countWhile, h, List.dropWhile_cons, ih]
    · simp [countWhile, h, List.dropWhile_cons]

theorem dropLit_self (l s : List Char) : dropLit true l (l ++ s) = some s := by
  induction l with
  | nil => rfl
  | cons c cs ih => simp [dropLit, charMatchCI, ih]

theorem iter_pages_trace_succ (respond : Nat → Nat → List Entry)
    (L start draw fuel : Nat) :
    iter_pages_trace respond L start draw (fuel + 1) =
      if respond start draw = [] then [((start, draw), respond start draw)]
      else ((start, draw), respond start draw) ::
        iter_pages_trace respond L (start + L) (draw + 1) fuel := rfl

/-- C1: Pagination Engine cursor arithmetic: whenever iter_pages issues
its n-th page request, that request carries start = start0 + n * L and
draw = draw0 + n, for every server behavior, page length and fuel. -/
theorem C1_cursor_arithmetic (respond : Nat → Nat → List Entry)
    (L start0 draw0 fuel n : Nat) (req : Nat × Nat) (page : List Entry)
    (h : (iter_pages_trace respond L start0 draw0 fuel)[n]? = some (req, page)) :
    req = (start0 + n * L, draw0 + n) := by
  induction fuel generalizing start0 draw0 n with
  | zero => simp [iter_pages_trace] at h
  | succ f ih =>
    rw [iter_pages_trace_succ] at h
    by_cases he : respond start0 draw0 = []
    · rw [if_pos he] at h
      cases n with
      | zero =>
        rw [List.getElem?_cons_zero, Option.some.injEq, Prod.mk.injEq] at h
        simp only [Nat.zero_mul, Nat.add_zero]
        exact h.1.symm
      | succ m => simp at h
    · rw [if_neg he] at h
      cases n with
      | zero =>
        rw [List.getElem?_cons_zero, Option.some.injEq, Prod.mk.injEq] at h
        simp only [Nat.zero_mul, Nat.add_zero]
        exact h.1.symm
      | succ m =>
        rw [List.getElem?_cons_succ] at h
        have hr := ih (start0 + L) (draw0 + 1) m h
        rw [hr, Prod.mk.injEq]
        constructor
        · ring
        · ring

/-- C1 witness: with a server always answering one entry, page length 7
and initial cursor (0, 1), the request at index 2 of the trace is
(0 + 2 * 7, 1 + 2). -/
theorem C1_witness :
    (iter_pages_trace respConst 7 0 1 4)[2]? = some ((14, 3), [exEntry]) ∧
    ((14, 3) : Nat × Nat) = (0 + 2 * 7, 1 + 2) :=
  ⟨by rfl, C1_cursor_arithmetic respConst 7 0 1 4 2 (14, 3) [exEntry] (by rfl)⟩

/-- C2: Pagination Engine termination: if the pages before index n are
all nonempty and the page at index n is empty, then (with enough fuel)
the request trace consists of exactly the requests 0 .. n with their
pages, and the yielded pages are exactly the first n: the empty page is
requested but not yielded, and no request follows it. With n = 0 the
yielded sequence is empty. -/
theorem C2_termination (respond : Nat → Nat → List Entry)
    (L start0 draw0 n fuel : Nat) (hfuel : n < fuel)
    (hbefore : ∀ k, k < n → respond (start0 + k * L) (draw0 + k) ≠ [])
    (hempty : respond (start0 + n * L) (draw0 + n) = []) :
    iter_pages_trace respond L start0 draw0 fuel =
      (List.range (n + 1)).map
        (fun k => ((start0 + k * L, draw0 + k), respond (start0 + k * L) (draw0 + k))) ∧
    iter_pages_yielded respond L start0 draw0 fuel =
      (List.range n).map
        (fun k => ((start0 + k * L, draw0 + k), respond (start0 + k * L) (draw0 + k))) := by
  induction n generalizing start0 draw0 fuel with
  | zero =>
    cases fuel with
    | zero => omega
    | succ f =>
      have he : respond start0 draw0 = [] := by simpa using hempty
      have h1 : List.range 1 = [0] := rfl
      constructor
      · rw [iter_pages_trace_succ, if_pos he]
        simp [he, h1]
      · rw [iter_pages_yielded, iter_pages_trace_succ, if_pos he]
        simp [he]
  | succ m ih =>
    cases fuel with
    | zero => omega
    | succ f =>
      have hne : respond start0 draw0 ≠ [] := by simpa using hbefore 0 (by omega)
      have hb2 : ∀ k, k < m → respond (start0 + L + k * L) (draw0 + 1 + k) ≠ [] := by
        intro k hk
        have harg : start0 + L + k * L = start0 + (k + 1) * L := by ring
        have harg2 : draw0 + 1 + k = draw0 + (k + 1) := by ring
        rw [harg, harg2]
        exact hbefore (k + 1) (by omega)
      have he2 : respond (start0 + L + m * L) (draw0 + 1 + m) = [] := by
        have harg : start0 + L + m * L = start0 + (m + 1) * L := by ring
        have harg2 : draw0 + 1 + m = draw0 + (m + 1) := by ring
        rw [harg, harg2]
        exact hempty
      have ihr := ih (start0 + L) (draw0 + 1) f (by omega) hb2 he2
      have hmapeq : ∀ j : Nat,
          (List.range j).map
            (fun k => ((start0 + L + k * L, draw0 + 1 + k),
              respond (start0 + L + k * L) (draw0 + 1 + k))) =
          (List.range j).map
            ((fun k => ((start0 + k * L, draw0 + k),
              respond (start0 + k * L) (draw0 + k))) ∘ Nat.succ) := by
        intro j
        apply List.map_congr_left
        intro a _
        have harg : start0 + L + a * L = start0 + (a + 1) * L := by ring
        have harg2 : draw0 + 1 + a = draw0 + (a + 1) := by ring
        simp [harg, harg2, Nat.succ_eq_add_one]
      constructor
      · rw [iter_pages_trace_succ, if_neg hne]
        rw [ihr.1, hmapeq (m + 1)]
        rw [List.range_succ_eq_map (n := m + 1)]
        simp [List.map_map]
      · rw [iter_pages_yielded, iter_pages_trace_succ, if_neg hne]
        rw [List.filter_cons]
        have hkeep : (!(respond start0 draw0).isEmpty) = true := by
          simpa [List.isEmpty_iff] using hne
        rw [if_pos hkeep]
        have := ihr.2
        rw [iter_pages_yielded] at this
        rw [this, hmapeq m]
        rw [List.range_succ_eq_map (n := m)]
        simp [List.map_map]

/-- C2 witness: with a server whose first page has one entry and whose
second page is empty, the trace is the two requests (0, 1), (5, 2) with
their pages, and only the first page is yielded. -/
theorem C2_witness :
    iter_pages_trace respOnce 5 0 1 3 =
      (List.range 2).map
        (fun k => ((0 + k * 5, 1 + k), respOnce (0 + k * 5) (1 + k))) ∧
    iter_pages_yielded respOnce 5 0 1 3 =
      (List.range 1).map
        (fun k => ((0 + k * 5, 1 + k), respOnce (0 + k * 5) (1 + k))) :=
  C2_termination respOnce 5 0 1 1 3 (by omega) (by decide) (by rfl)

/-- C5 counterexample: a dash-separated date without a time-of-day does
not parse; the format list has no dash-without-time candidate, so
parsing 05-10-2025 yields None rather than the claimed success. -/
theorem C5_counterexample : parse_datetime (some (("05-10-2025").data)) = none := by rfl

/-- C5 (amended): the auction date is parsed against the ordered format
list slash-with-time, dash-with-time, slash-without-time; the first
matching format wins, an absent or empty value and a value no format
matches yield None; slash dates with or without time and dash dates with
time parse, while a dash date without time yields None. -/
theorem C5_first_format_wins :
    parse_datetime none = none ∧
    parse_datetime (some []) = none ∧
    (∀ v dt, strptime_dmy '/' true v = some dt → parse_datetime (some v) = some dt) ∧
    (∀ v dt, strptime_dmy '/' true v = none → strptime_dmy '-' true v = some dt →
      parse_datetime (some v) = some dt) ∧
    (∀ v, strptime_dmy '/' true v = none → strptime_dmy '-' true v = none →
      parse_datetime (some v) = strptime_dmy '/' false v) ∧
    parse_datetime (some (("05/10/2025").data)) = some ⟨2025, 10, 5, 0, 0⟩ ∧
    parse_datetime (some (("05-10-2025 14:30").data)) = some ⟨2025, 10, 5, 14, 30⟩ ∧
    parse_datetime (some (("05-10-2025").data)) = none := by
  refine ⟨rfl, rfl, ?_, ?_, ?_, by rfl, by rfl, by rfl⟩
  · intro v dt h1
    have hv : v ≠ [] := by
      intro hv
      rw [hv] at h1
      simp [strptime_dmy, scanDay] at h1
    simp [parse_datetime, hv, h1]
  · intro v dt h1 h2
    have hv : v ≠ [] := by
      intro hv
      rw [hv] at h2
      simp [strptime_dmy, scanDay] at h2
    simp [parse_datetime, hv, h1, h2]
  · intro v h1 h2
    by_cases hv : v = []
    · rw [hv]
      have : strptime_dmy '/' false ([] : List Char) = none := by
        simp [strptime_dmy, scanDay]
      simp [parse_datetime, this]
    · simp [parse_datetime, hv, h1, h2]

/-- C5 witness: the first candidate format matches 05/10/2025 14:30 and
the parse result is that first match. -/
theorem C5_witness :
    parse_datetime (some (("05/10/2025 14:30").data)) = some ⟨2025, 10, 5, 14, 30⟩ :=
  C5_first_format_wins.2.2.1 (("05/10/2025 14:30").data) ⟨2025, 10, 5, 14, 30⟩ (by decide)

theorem mem_collapseNLAux (c : Char) : ∀ (s : List Char) (b : Bool),
    c ∈ collapseNLAux b s → c ∈ s := by
  intro s
  induction s with
  | nil => intro b hc; simp [collapseNLAux] at hc
  | cons a rest ih =>
    intro b hc
    rw [collapseNLAux] at hc
    split at hc
    · rename_i hA
      split at hc
      · exact List.mem_cons_of_mem _ (ih true hc)
      · rcases List.mem_cons.mp hc with h | h
        · subst h
          rw [eq_of_beq hA]
          exact List.mem_cons_self _ _
        · exact List.mem_cons_of_mem _ (ih true h)
    · rcases List.mem_cons.mp hc with h | h
      · subst h
        exact List.mem_cons_self _ _
      · exact List.mem_cons_of_mem _ (ih false h)

theorem collapseNLAux_true_head : ∀ (s : List Char) (d : Char),
    (collapseNLAux true s).head? = some d → d ≠ '\n' := by
  intro s
  induction s with
  | nil => intro d h; simp [collapseNLAux] at h
  | cons a rest ih =>
    intro d h
    rw [collapseNLAux] at h
    split at h
    · rw [if_pos rfl] at h
      exact ih d h
    · rename_i hA
      rw [List.head?_cons, Option.some.injEq] at h
      subst h
      intro hd
      rw [hd] at hA
      simp at hA

theorem hasDoubleNL_collapseNLAux : ∀ (s : List Char) (b : Bool),
    hasDoubleNL (collapseNLAux b s) = false := by
  intro s
  induction s with
  | nil => intro b; rfl
  | cons a rest ih =>
    intro b
    rw [collapseNLAux]
    split
    · split
      · exact ih true
      · cases hT : collapseNLAux true rest with
        | nil => rfl
        | cons d r =>
          rw [hasDoubleNL]
          have hd : d ≠ '\n' := collapseNLAux_true_head rest d (by rw [hT]; rfl)
          have hdb : (d == '\n') = false := beq_eq_false_iff_ne.mpr hd
          rw [hdb]
          rw [← hT]
          simpa using ih true
    · rename_i hA
      cases hT : collapseNLAux false rest with
      | nil => rfl
      | cons d r =>
        rw [hasDoubleNL]
        have hab : (a == '\n') = false := by simpa using hA
        rw [hab]
        rw [← hT]
        simpa using ih false

theorem hasDoubleNL_tail (c : Char) (s : List Char)
    (h : hasDoubleNL (c :: s) = false) : hasDoubleNL s = false := by
  cases s with
  | nil => rfl
  | cons d r =>
    rw [hasDoubleNL] at h
    exact (Bool.or_eq_false_iff.mp h).2

theorem hasDoubleNL_append (u : List Char) : ∀ (m : List Char),
    hasDoubleNL m = true → hasDoubleNL (m ++ u) = true := by
  intro m
  induction m with
  | nil => intro h; simp [hasDoubleNL] at h
  | cons a tail ih =>
    intro h
    cases tail with
    | nil => simp [hasDoubleNL] at h
    | cons b r =>
      rw [hasDoubleNL] at h
      show hasDoubleNL (a :: b :: (r ++ u)) = true
      rw [hasDoubleNL]
      rcases Bool.or_eq_true_iff.mp h with h1 | h2
      · rw [h1]
        rfl
      · have h3 := ih h2
        rw [show (b :: r) ++ u = b :: (r ++ u) from rfl] at h3
        rw [h3]
        simp

theorem hasDoubleNL_dropWhile (p : Char → Bool) : ∀ (s : List Char),
    hasDoubleNL s = false → hasDoubleNL (s.dropWhile p) = false := by
  intro s
  induction s with
  | nil => intro h; simpa using h
  | cons a rest ih =>
    intro h
    rw [List.dropWhile_cons]
    split
    · exact ih (hasDoubleNL_tail a rest h)
    · exact h

theorem dropWhile_exists_prefix (p : Char → Bool) : ∀ (s : List Char),
    ∃ t, t ++ s.dropWhile p = s := by
  intro s
  induction s with
  | nil => exact ⟨[], rfl⟩
  | cons a rest ih =>
    rw [List.dropWhile_cons]
    split
    · obtain ⟨t, ht⟩ := ih
      exact ⟨a :: t, by rw [List.cons_append, ht]⟩
    · exact ⟨[], rfl⟩

theorem pyRStrip_exists_suffix (s : List Char) : ∃ t, pyRStrip s ++ t = s := by
  obtain ⟨t, ht⟩ := dropWhile_exists_prefix pyWs s.reverse
  refine ⟨t.reverse, ?_⟩
  rw [pyRStrip, ← List.reverse_append, ht, List.reverse_reverse]

theorem mem_dropWhile (p : Char → Bool) (s : List Char) (c : Char)
    (hc : c ∈ s.dropWhile p) : c ∈ s := by
  obtain ⟨t, ht⟩ := dropWhile_exists_prefix p s
  rw [← ht]
  exact List.mem_append_right t hc

theorem mem_pyRStrip (s : List Char) (c : Char) (hc : c ∈ pyRStrip s) : c ∈ s := by
  rw [pyRStrip] at hc
  have h1 := List.mem_reverse.mp hc
  exact List.mem_reverse.mp (mem_dropWhile pyWs s.reverse c h1)

theorem mem_pyStrip (s : List Char) (c : Char) (hc : c ∈ pyStrip s) : c ∈ s :=
  mem_dropWhile pyWs s c (mem_pyRStrip (pyLStrip s) c hc)

theorem head?_dropWhile_not (p : Char → Bool) : ∀ (s : List Char) (d : Char),
    (s.dropWhile p).head? = some d → p d = false := by
  intro s
  induction s with
  | nil => intro d h; simp at h
  | cons a rest ih =>
    intro d h
    rw [List.dropWhile_cons] at h
    split at h
    · exact ih d h
    · rename_i hA
      rw [List.head?_cons, Option.some.injEq] at h
      subst h
      exact Bool.of_not_eq_true hA

theorem pyRStrip_head? (s : List Char) (d : Char)
    (h : (pyRStrip s).head? = some d) : s.head? = some d := by
  obtain ⟨t, ht⟩ := pyRStrip_exists_suffix s
  rw [← ht]
  cases hr : pyRStrip s with
  | nil => rw [hr] at h; simp at h
  | cons x r =>
    rw [hr] at h
    rw [List.head?_cons, Option.some.injEq] at h
    rw [List.cons_append, List.head?_cons, h]

theorem pyRStrip_getLast? (s : List Char) (d : Char)
    (h : (pyRStrip s).getLast? = some d) : pyWs d = false := by
  rw [pyRStrip, List.getLast?_reverse] at h
  exact head?_dropWhile_not pyWs s.reverse d h

/-- C6 counterexample: the bell character (code point 7) passes the whole
pipeline untouched although it lies outside the printable ASCII range
32-126, and a run of two blank lines collapses to zero blank lines, not
to one. NFKD normalization is the identity on pure-ASCII text, so the
identity stands in for it faithfully on these inputs. -/
theorem C6_counterexample :
    to_ascii (fun t => t) (("a\x07b").data) = ("a\x07b").data ∧
    ('\x07').toNat < 32 ∧
    to_ascii (fun t => t) (("a\n\n\nb").data) = ("a\nb").data := by
  refine ⟨by decide, by decide, by decide⟩

/-- C6 (amended): for every PDF whose pages yield text, the extracted
output contains no characters outside the ASCII range (code points above
127), no carriage return, and no two consecutive newlines (hence no
blank line at all, in particular never more than one), and it neither
starts nor ends with whitespace — for every behavior of the abstracted
NFKD normalization and page extraction. -/
theorem C6_normalization (nfkd : List Char → List Char) (pages : List (List Char)) :
    allAsciiB (extract_text nfkd pages) = true ∧
    (extract_text nfkd pages).count '\r' = 0 ∧
    hasDoubleNL (extract_text nfkd pages) = false ∧
    trimmedB (extract_text nfkd pages) = true := by
  have hbase : ∀ c ∈ replaceCR (asciiIgnore (nfkd (joinNL pages))),
      c.toNat ≤ 127 ∧ c ≠ '\r' := by
    intro c hc
    rw [replaceCR] at hc
    obtain ⟨a, ha, hfa⟩ := List.mem_map.mp hc
    rw [asciiIgnore] at ha
    obtain ⟨_, ha2⟩ := List.mem_filter.mp ha
    have ha127 : a.toNat ≤ 127 := of_decide_eq_true ha2
    by_cases hr : (a == '\r') = true
    · rw [if_pos hr] at hfa
      subst hfa
      exact ⟨by decide, by decide⟩
    · rw [if_neg hr] at hfa
      subst hfa
      exact ⟨ha127, by simpa using hr⟩
  have hmem : ∀ c ∈ extract_text nfkd pages,
      c ∈ replaceCR (asciiIgnore (nfkd (joinNL pages))) := by
    intro c hc
    have h1 : c ∈ collapseNL (replaceCR (asciiIgnore (nfkd (joinNL pages)))) :=
      mem_pyStrip _ c hc
    exact mem_collapseNLAux c _ false h1
  refine ⟨?_, ?_, ?_, ?_⟩
  · rw [allAsciiB, List.all_eq_true]
    intro c hc
    exact decide_eq_true ((hbase c (hmem c hc)).1)
  · rw [List.count_eq_zero]
    intro hc
    exact (hbase '\r' (hmem '\r' hc)).2 rfl
  · have h7 : hasDoubleNL (collapseNL (replaceCR (asciiIgnore (nfkd (joinNL pages))))) = false :=
      hasDoubleNL_collapseNLAux _ false
    have h8 : hasDoubleNL
        ((collapseNL (replaceCR (asciiIgnore (nfkd (joinNL pages))))).dropWhile pyWs) = false :=
      hasDoubleNL_dropWhile pyWs _ h7
    obtain ⟨t, ht⟩ := pyRStrip_exists_suffix
      ((collapseNL (replaceCR (asciiIgnore (nfkd (joinNL pages))))).dropWhile pyWs)
    cases hb : hasDoubleNL (extract_text nfkd pages) with
    | false => rfl
    | true =>
      exfalso
      have hb2 : hasDoubleNL
          (pyRStrip ((collapseNL (replaceCR (asciiIgnore (nfkd (joinNL pages))))).dropWhile pyWs))
            = true := hb
      have h9 := hasDoubleNL_append t _ hb2
      rw [ht] at h9
      rw [h8] at h9
      exact Bool.false_ne_true h9
  · rw [trimmedB]
    have hhead : ∀ d, (extract_text nfkd pages).head? = some d → pyWs d = false := by
      intro d hd
      have h2 : ((collapseNL (replaceCR (asciiIgnore (nfkd (joinNL pages))))).dropWhile
          pyWs).head? = some d := pyRStrip_head? _ d hd
      exact head?_dropWhile_not pyWs _ d h2
    have hlast : ∀ d, (extract_text nfkd pages).getLast? = some d → pyWs d = false :=
      fun d hd => pyRStrip_getLast? _ d hd
    cases hh : (extract_text nfkd pages).head? with
    | none =>
      cases hl : (extract_text nfkd pages).getLast? with
      | none => rfl
      | some d => simp [hlast d hl]
    | some d =>
      cases hl : (extract_text nfkd pages).getLast? with
      | none => simp [hhead d hh]
      | some d2 => simp [hhead d hh, hlast d2 hl]

theorem parse_valor_minimo_no_digits (s : List Char)
    (h : s.filter Char.isDigit = []) : parse_valor_minimo (some s) = none := by
  by_cases hs : s = []
  · simp [parse_valor_minimo, hs]
  · simp [parse_valor_minimo, hs, h]

theorem matchSeq_clsStar_cap (p : Char → Bool) (s : List Char) :
    matchSeq [.clsStar p true] s = some [s.takeWhile p] := by
  have hf : (matchSeq [] (s.drop (countWhile p s))).map
      (fun gs => if true then s.take (countWhile p s) :: gs else gs) =
      some [s.take (countWhile p s)] := rfl
  calc matchSeq [.clsStar p true] s
      = tryFrom (fun k => (matchSeq [] (s.drop k)).map
          (fun gs => if true then s.take k :: gs else gs)) (countWhile p s) := rfl
    _ = some [s.take (countWhile p s)] := tryFrom_first _ _ _ hf
    _ = some [s.takeWhile p] := by rw [take_countWhile]

theorem matchSeq_ws_val (rest : List Char) :
    matchSeq [.clsStar pyWs false, .clsStar valCls true] rest =
      some [(rest.dropWhile pyWs).takeWhile valCls] := by
  have hf : (matchSeq [.clsStar valCls true] (rest.drop (countWhile pyWs rest))).map
      (fun gs => if false then rest.take (countWhile pyWs rest) :: gs else gs) =
      some [(rest.dropWhile pyWs).takeWhile valCls] := by
    rw [matchSeq_clsStar_cap, drop_countWhile]
    rfl
  calc matchSeq [.clsStar pyWs false, .clsStar valCls true] rest
      = tryFrom (fun k => (matchSeq [.clsStar valCls true] (rest.drop k)).map
          (fun gs => if false then rest.take k :: gs else gs)) (countWhile pyWs rest) := rfl
    _ = some [(rest.dropWhile pyWs).takeWhile valCls] := tryFrom_first _ _ _ hf

theorem matchSeq_valorPat (rest : List Char) :
    matchSeq valorPat (valorLabel ++ rest) =
      some [(rest.dropWhile pyWs).takeWhile valCls] := by
  calc matchSeq valorPat (valorLabel ++ rest)
      = (match dropLit true valorLabel (valorLabel ++ rest) with
         | none => none
         | some s2 => matchSeq [.clsStar pyWs false, .clsStar valCls true] s2) := rfl
    _ = matchSeq [.clsStar pyWs false, .clsStar valCls true] rest := by rw [dropLit_self]
    _ = some [(rest.dropWhile pyWs).takeWhile valCls] := matchSeq_ws_val rest

theorem matchSeq_valorPat_none (s : List Char)
    (h : dropLit true valorLabel s = none) : matchSeq valorPat s = none := by
  calc matchSeq valorPat s
      = (match dropLit true valorLabel s with
         | none => none
         | some s2 => matchSeq [.clsStar pyWs false, .clsStar valCls true] s2) := rfl
    _ = none := by rw [h]

theorem reSearch_of_matchSeq (pat : List RE) (s : List Char) (gs : List (List Char))
    (h : matchSeq pat s = some gs) : reSearch pat s = some gs := by
  cases s with
  | nil => exact h
  | cons c rest => rw [reSearch, h]

theorem reSearch_append_of_none (pat : List RE) : ∀ (pre s : List Char),
    (∀ j, j < pre.length → matchSeq pat ((pre ++ s).drop j) = none) →
    reSearch pat (pre ++ s) = reSearch pat s := by
  intro pre
  induction pre with
  | nil => intro s _; rfl
  | cons c pre2 ih =>
    intro s h
    have h0 := h 0 (by simp)
    rw [List.drop_zero, List.cons_append] at h0
    rw [List.cons_append, reSearch, h0]
    exact ih s (fun j hj => by
      have h1 := h (j + 1) (by simpa using Nat.succ_lt_succ hj)
      simpa using h1)

theorem reSearch_none (pat : List RE) : ∀ (s : List Char),
    (∀ j, matchSeq pat (s.drop j) = none) → reSearch pat s = none := by
  intro s
  induction s with
  | nil =>
    intro h
    have h0 := h 0
    rw [List.drop_zero] at h0
    exact h0
  | cons c rest ih =>
    intro h
    have h0 := h 0
    rw [List.drop_zero] at h0
    rw [reSearch, h0]
    exact ih (fun j => by simpa using h (j + 1))

theorem takeWhile_append_of_all (p : Char → Bool) (t : List Char) : ∀ (l : List Char),
    (∀ c ∈ l, p c = true) → List.takeWhile p (l ++ t) = l ++ List.takeWhile p t := by
  intro l
  induction l with
  | nil => intro _; rfl
  | cons a rest ih =>
    intro h
    have ha := h a (List.mem_cons_self _ _)
    have ih2 := ih (fun c hc => h c (List.mem_cons_of_mem _ hc))
    rw [List.cons_append, List.takeWhile_cons, ha]
    simp only [if_true]
    rw [ih2, List.cons_append]

/-- C7 counterexample: the capture class includes whitespace, so it runs
across the newline after the labeled line and swallows the digits of the
following line: a text containing the exact line still produces 123456799,
not 1234567, refuting the universally quantified claim. -/
theorem C7_counterexample :
    valor_minimo_of (("Valor Minimo (pesos): 1.234.567\n99").data) = some 123456799 := by
  decide

/-- C7 (amended): the first position where the minimum-value pattern
matches wins; from there the capture is the run of digits, dots and
whitespace following the label (it may extend across lines), all
non-digits are stripped and the digits parse as an integer. When the
label occurs nowhere the result is None, and when the capture holds no
digit the result is None; in particular, when the first label occurrence
is followed by 1.234.567 and then a character outside the capture class
(or the end of the text), the result is 1234567. -/
theorem C7_valor_minimo :
    (∀ text : List Char,
      (∀ j, j < text.length → dropLit true valorLabel (text.drop j) = none) →
      valor_minimo_of text = none) ∧
    (∀ (text : List Char) (gs : List (List Char)), reSearch valorPat text = some gs →
      (gs.headD []).filter Char.isDigit = [] → valor_minimo_of text = none) ∧
    (∀ pre post : List Char,
      (∀ j, j < pre.length →
        dropLit true valorLabel ((pre ++ valorLine ++ post).drop j) = none) →
      (∀ c, post.head? = some c → valCls c = false) →
      valor_minimo_of (pre ++ valorLine ++ post) = some 1234567) := by
  refine ⟨?_, ?_, ?_⟩
  · intro text h
    have hall : ∀ j, matchSeq valorPat (text.drop j) = none := by
      intro j
      by_cases hj : j < text.length
      · exact matchSeq_valorPat_none _ (h j hj)
      · have hnil : text.drop j = [] := List.drop_eq_nil_of_le (by omega)
        rw [hnil]
        exact matchSeq_valorPat_none _ (by rfl)
    rw [valor_minimo_of, reSearch_none valorPat text hall]
    rfl
  · intro text gs h1 h2
    rw [valor_minimo_of, h1]
    exact parse_valor_minimo_no_digits _ h2
  · intro pre post hpre hpost
    have hsplit : valorLine ++ post = valorLabel ++ (' ' :: (valorNumber ++ post)) := by
      rw [show valorLine = valorLabel ++ (' ' :: valorNumber) from rfl]
      simp [List.append_assoc]
    have hassoc : pre ++ valorLine ++ post = pre ++ (valorLabel ++ (' ' :: (valorNumber ++ post))) := by
      rw [List.append_assoc, hsplit]
    have hgroup : ((' ' :: (valorNumber ++ post)).dropWhile pyWs).takeWhile valCls =
        valorNumber := by
      rw [List.dropWhile_cons]
      rw [show pyWs ' ' = true from rfl]
      simp only [if_true]
      rw [show valorNumber ++ post = '1' :: (((".234.567").data) ++ post) from rfl]
      rw [List.dropWhile_cons]
      rw [show pyWs '1' = false from rfl]
      simp only [Bool.false_eq_true, if_false]
      rw [show ('1' : Char) :: (((".234.567").data) ++ post) = valorNumber ++ post from rfl]
      rw [takeWhile_append_of_all valCls post valorNumber (by decide)]
      have hpost2 : List.takeWhile valCls post = [] := by
        cases post with
        | nil => rfl
        | cons c cs =>
          rw [List.takeWhile_cons, hpost c rfl]
          simp
      rw [hpost2, List.append_nil]
    have hsearch : reSearch valorPat (pre ++ valorLine ++ post) = some [valorNumber] := by
      rw [hassoc]
      rw [reSearch_append_of_none valorPat pre _ (fun j hj => by
        apply matchSeq_valorPat_none
        have := hpre j hj
        rw [hassoc] at this
        exact this)]
      rw [reSearch_of_matchSeq _ _ _ (matchSeq_valorPat (' ' :: (valorNumber ++ post)))]
      rw [hgroup]
    rw [valor_minimo_of, hsearch]
    decide

/-- C7 witness: with nothing before the labeled line and a letter after
it, the extracted minimum value is 1234567. -/
theorem C7_witness :
    valor_minimo_of (([] : List Char) ++ valorLine ++ ("x").data) = some 1234567 :=
  C7_valor_minimo.2.2 [] (("x").data)
    (fun j hj => absurd hj (by simp))
    (fun c hc => by
      have hcx : c = 'x' := by simpa using hc.symm
      rw [hcx]
      decide)

/-- C8 counterexample: the claim quantifies over every input text
containing the target line, but re.search takes the leftmost combined
match: on a text whose earlier line also matches the combined pattern,
region resolves to A and commune to B, not to Metropolitana and
Santiago, although the text contains the target line unchanged. -/
theorem C8_counterexample :
    region_comuna
        (("Region: A Comuna: B\nRegion: Metropolitana Comuna: Santiago").data) =
      (some (("A").data), some (("B").data)) ∧
    some ((("A").data : List Char)) ≠ some (("Metropolitana").data) :=
  ⟨by decide, by decide⟩

/-- C8 (amended): the combined single-line pattern is tried first and its
leftmost match wins: whenever the first combined match has nonempty
stripped groups, region and commune are exactly those stripped groups —
so the input consisting of the line Region: Metropolitana Comuna:
Santiago resolves to Metropolitana and Santiago, but an earlier combined
match elsewhere in the text wins instead. For every input where the
combined pattern fails, region and commune each fall back independently
to their own single-line labeled-field pattern, yielding None exactly
when that also fails to match. -/
theorem C8_region_comuna :
    region_comuna (("Region: Metropolitana Comuna: Santiago").data) =
      (some (("Metropolitana").data), some (("Santiago").data)) ∧
    (∀ text : List Char, reSearch combinedRegionPat text = none →
      region_comuna text =
        (search_group regionLabeledPat text, search_group comunaLabeledPat text)) ∧
    (∀ text : List Char, reSearch combinedRegionPat text = none →
      (((region_comuna text).1 = none ↔ reSearch regionLabeledPat text = none) ∧
       ((region_comuna text).2 = none ↔ reSearch comunaLabeledPat text = none))) ∧
    (∀ text g1 g2 : List Char, reSearch combinedRegionPat text = some [g1, g2] →
      pyStrip g1 ≠ [] → pyStrip g2 ≠ [] →
      region_comuna text = (some (pyStrip g1), some (pyStrip g2))) := by
  refine ⟨by decide, ?_, ?_, ?_⟩
  · intro text h
    simp [region_comuna, h, truthyS]
  · intro text h
    have h2 : region_comuna text =
        (search_group regionLabeledPat text, search_group comunaLabeledPat text) := by
      simp [region_comuna, h, truthyS]
    rw [h2]
    constructor
    · simp [search_group]
    · simp [search_group]
  · intro text g1 g2 h h1 h2
    simp [region_comuna, h, truthyS, h1, h2]

/-- C8 witness: on a text without the combined pattern, both fields fall
back to their own labeled-field patterns. -/
theorem C8_witness :
    region_comuna (("Comuna: Santiago").data) =
      (search_group regionLabeledPat (("Comuna: Santiago").data),
       search_group comunaLabeledPat (("Comuna: Santiago").data)) :=
  C8_region_comuna.2.1 (("Comuna: Santiago").data) (by decide)

/-- C9: Session bootstrap and headers: whenever both meta patterns match
the landing page with token value t and header name h, bootstrap succeeds
and the headers accessor yields exactly the pair (h, t), the XHR marker
header, and the same-origin Referer and Origin entries; when either
pattern fails to match, bootstrap fails with the authentication error. -/
theorem C9_bootstrap_headers :
    (∀ (html t h : List Char), reSearch csrfTokenPat html = some [t] →
      reSearch csrfHeaderPat html = some [h] →
      bootstrap html = .ok ⟨t, h⟩ ∧
      csrf_headers ⟨t, h⟩ =
        [(h, t),
         (("X-Requested-With").data, ("XMLHttpRequest").data),
         (("Referer").data, baseUrl ++ ("/boletin/remates").data),
         (("Origin").data, baseUrl)]) ∧
    (∀ html : List Char,
      reSearch csrfTokenPat html = none ∨ reSearch csrfHeaderPat html = none →
      bootstrap html = .error .authenticationError) := by
  constructor
  · intro html t h h1 h2
    constructor
    · rw [bootstrap, h1, h2]
    · rfl
  · intro html hcase
    rcases hcase with hc | hc
    · cases hh : reSearch csrfHeaderPat html with
      | none => rw [bootstrap, hc, hh]
      | some gs => rw [bootstrap, hc, hh]
    · cases ht : reSearch csrfTokenPat html with
      | none => rw [bootstrap, ht, hc]
      | some gs =>
        cases gs with
        | nil => rw [bootstrap, ht, hc]
        | cons a rest => rw [bootstrap, ht, hc]

/-- C9 witness: a landing page with both meta tags bootstraps and yields
the header map of the claim. -/
theorem C9_witness :
    bootstrap html0 = .ok ⟨("T1").data, ("X-CSRF").data⟩ ∧
    csrf_headers ⟨("T1").data, ("X-CSRF").data⟩ =
      [((("X-CSRF").data), (("T1").data)),
       (("X-Requested-With").data, ("XMLHttpRequest").data),
       (("Referer").data, baseUrl ++ ("/boletin/remates").data),
       (("Origin").data, baseUrl)] :=
  C9_bootstrap_headers.1 html0 (("T1").data) (("X-CSRF").data) (by decide) (by decide)

theorem process_entries_preserves (cfg : CrawlConfig) (tipo : List Char) :
    ∀ (entries : List Entry) (st : CrawlSt) (tooOld : Nat),
      ((∀ r ∈ st.records, r.codigo_validacion ∈ st.seen) ∧
        (st.records.map (fun r => r.codigo_validacion)).Nodup) →
      ((∀ r ∈ (process_entries cfg tipo entries st tooOld).1.records,
          r.codigo_validacion ∈ (process_entries cfg tipo entries st tooOld).1.seen) ∧
        ((process_entries cfg tipo entries st tooOld).1.records.map
          (fun r => r.codigo_validacion)).Nodup) := by
  intro entries
  induction entries with
  | nil => intro st tooOld hP; exact hP
  | cons e rest ih =>
    intro st tooOld hP
    cases hcod : e.codigoValidacion with
    | none =>
      rw [process_entries]
      simp only [hcod]
      exact ih st tooOld hP
    | some c =>
      by_cases hcne : c = []
      · rw [process_entries]
        simp only [hcod]
        rw [if_pos hcne]
        exact ih st tooOld hP
      · by_cases hcSeen : c ∈ st.seen
        · rw [process_entries]
          simp only [hcod]
          rw [if_neg hcne, if_pos hcSeen]
          exact ih st tooOld hP
        · cases hdk : entryDateKey e with
          | none =>
            rw [process_entries]
            simp only [hcod, hdk]
            rw [if_neg hcne, if_neg hcSeen]
            exact ih st tooOld hP
          | some fecha =>
            by_cases hw1 : (match cfg.effectiveStart with
                | some lb => decide (fecha < lb)
                | none => false) = true
            · rw [process_entries]
              simp only [hcod, hdk]
              rw [if_neg hcne, if_neg hcSeen, if_pos hw1]
              exact ih st (tooOld + 1) hP
            · by_cases hw2 : (match cfg.endDate with
                  | some ub => decide (ub < fecha)
                  | none => false) = true
              · rw [process_entries]
                simp only [hcod, hdk]
                rw [if_neg hcne, if_neg hcSeen, if_neg hw1, if_pos hw2]
                exact ih st tooOld hP
              · cases hpdf : cfg.pdfOf c with
                | none =>
                  rw [process_entries]
                  simp only [hcod, hdk, hpdf]
                  rw [if_neg hcne, if_neg hcSeen, if_neg hw1, if_neg hw2]
                  exact ih st tooOld hP
                | some detail =>
                  have hcnot : c ∉ st.records.map (fun r => r.codigo_validacion) := by
                    intro hmem
                    obtain ⟨r, hr, hrc⟩ := List.mem_map.mp hmem
                    exact hcSeen (hrc ▸ hP.1 r hr)
                  have hP2 :
                      (∀ r ∈ (CrawlSt.mk
                          (st.records ++ [mkRecord c tipo fecha e detail])
                          (st.seen ++ [c])).records,
                        r.codigo_validacion ∈ (CrawlSt.mk
                          (st.records ++ [mkRecord c tipo fecha e detail])
                          (st.seen ++ [c])).seen) ∧
                      (((CrawlSt.mk
                          (st.records ++ [mkRecord c tipo fecha e detail])
                          (st.seen ++ [c])).records.map
                        (fun r => r.codigo_validacion)).Nodup) := by
                    constructor
                    · intro r hr
                      rcases List.mem_append.mp hr with h1 | h1
                      · exact List.mem_append_left _ (hP.1 r h1)
                      · have hre : r = mkRecord c tipo fecha e detail :=
                          List.mem_singleton.mp h1
                        rw [hre]
                        exact List.mem_append_right _ (List.mem_singleton.mpr rfl)
                    · show ((st.records ++ [mkRecord c tipo fecha e detail]).map
                        (fun r => r.codigo_validacion)).Nodup
                      rw [List.map_append]
                      rw [show ([mkRecord c tipo fecha e detail].map
                        (fun r => r.codigo_validacion)) = [c] from rfl]
                      rw [← List.concat_eq_append]
                      exact List.Nodup.concat hcnot hP.2
                  by_cases hlim : limitHit cfg.limit
                      (st.records ++ [mkRecord c tipo fecha e detail]).length = true
                  · rw [process_entries]
                    simp only [hcod, hdk, hpdf]
                    rw [if_neg hcne, if_neg hcSeen, if_neg hw1, if_neg hw2, if_pos hlim]
                    exact hP2
                  · rw [process_entries]
                    simp only [hcod, hdk, hpdf]
                    rw [if_neg hcne, if_neg hcSeen, if_neg hw1, if_neg hw2, if_neg hlim]
                    exact ih _ tooOld hP2

theorem crawl_endpoint_preserves (respond : Nat → Nat → List Entry)
    (cfg : CrawlConfig) (tipo : List Char) (L : Nat) :
    ∀ (fuel start draw : Nat) (st : CrawlSt),
      ((∀ r ∈ st.records, r.codigo_validacion ∈ st.seen) ∧
        (st.records.map (fun r => r.codigo_validacion)).Nodup) →
      ((∀ r ∈ (crawl_endpoint respond cfg tipo L start draw st fuel).1.records,
          r.codigo_validacion ∈ (crawl_endpoint respond cfg tipo L start draw st fuel).1.seen) ∧
        ((crawl_endpoint respond cfg tipo L start draw st fuel).1.records.map
          (fun r => r.codigo_validacion)).Nodup) := by
  intro fuel
  induction fuel with
  | zero => intro start draw st hP; exact hP
  | succ f ih =>
    intro start draw st hP
    rw [crawl_endpoint]
    split
    · exact hP
    · split
      · exact process_entries_preserves cfg tipo _ st 0 hP
      · split
        · exact process_entries_preserves cfg tipo _ st 0 hP
        · exact ih (start + L) (draw + 1) _ (process_entries_preserves cfg tipo _ st 0 hP)

/-- C3 (amended): over one run crawling both asset-category endpoints,
the emitted records carry pairwise distinct validation codes — at most
one Auction Record per code, whatever the server returns and whatever
the window, ceiling and PDF pipeline do. -/
theorem C3_distinct_codes (respond : List Char → Nat → Nat → List Entry)
    (cfg : CrawlConfig) (L fuel : Nat) :
    ((crawl_run respond cfg L fuel).records.map (fun r => r.codigo_validacion)).Nodup := by
  have base : (∀ r ∈ (CrawlSt.mk [] []).records,
      r.codigo_validacion ∈ (CrawlSt.mk [] []).seen) ∧
      (((CrawlSt.mk [] []).records.map (fun r => r.codigo_validacion)).Nodup) := by
    constructor
    · intro r hr
      simp at hr
    · simp
  have h1 := crawl_endpoint_preserves (respond (("/boletin/getRMP/").data)) cfg
    (("mueble").data) L fuel 0 1 ⟨[], []⟩ base
  rw [crawl_run]
  split
  · exact h1.2
  · exact (crawl_endpoint_preserves (respond (("/boletin/getRIP/").data)) cfg
      (("inmueble").data) L fuel 0 1 _ h1).2

/-- C3 counterexample: the validation code X appears in two listing
entries of the run, both of them published before the window lower
bound, and the orchestration emits zero Auction Records for it — not
exactly one — because a too-old entry is skipped without being marked
seen. -/
theorem C3_counterexample :
    (respondC3 (("/boletin/getRMP/").data) 0 1).countP
      (fun e => decide (e.codigoValidacion = some (("X").data))) = 2 ∧
    (crawl_run respondC3 cfgLB 100 5).records = [] := ⟨by decide, by decide⟩

theorem process_entries_all_tooOld (cfg : CrawlConfig) (tipo : List Char) (lb : Nat)
    (hlb : cfg.effectiveStart = some lb) :
    ∀ (entries : List Entry) (st : CrawlSt) (tooOld : Nat),
      (∀ e ∈ entries, freshTooOld st lb e = true) →
      process_entries cfg tipo entries st tooOld = (st, tooOld + entries.length, false) := by
  intro entries
  induction entries with
  | nil => intro st tooOld _; simp [process_entries]
  | cons e rest ih =>
    intro st tooOld hall
    have he := hall e (List.mem_cons_self _ _)
    rw [freshTooOld] at he
    cases hcod : e.codigoValidacion with
    | none => rw [hcod] at he; simp at he
    | some c =>
      rw [hcod] at he
      cases hdk : entryDateKey e with
      | none => rw [hdk] at he; simp at he
      | some dk =>
        rw [hdk] at he
        simp only [Bool.and_eq_true, Bool.not_eq_true', decide_eq_false_iff_not,
          decide_eq_true_eq] at he
        obtain ⟨⟨hcne, hcns⟩, hlt⟩ := he
        have hW : (match cfg.effectiveStart with
                   | some lb2 => decide (dk < lb2)
                   | none => false) = true := by
          rw [hlb]
          exact decide_eq_true hlt
        rw [process_entries]
        simp only [hcod]
        rw [if_neg hcne, if_neg hcns]
        simp only [hdk]
        rw [if_pos hW]
        rw [ih st (tooOld + 1) (fun e2 he2 => hall e2 (List.mem_cons_of_mem _ he2))]
        have harith : tooOld + 1 + rest.length = tooOld + (e :: rest).length := by
          rw [List.length_cons]
          omega
        rw [harith]

/-- C4 (amended): for every fetched page whose entries are all counted
too old — each has a fresh nonempty validation code, a parsable
publication date, and that date precedes the configured lower bound —
the endpoint crawl stops after that page: its request trace from that
page on consists of that page's request only. -/
theorem C4_early_stop (respond : Nat → Nat → List Entry) (cfg : CrawlConfig)
    (tipo : List Char) (L start draw fuel : Nat) (st : CrawlSt) (lb : Nat)
    (hlb : cfg.effectiveStart = some lb)
    (hne : respond start draw ≠ [])
    (hall : ∀ e ∈ respond start draw, freshTooOld st lb e = true) :
    (crawl_endpoint respond cfg tipo L start draw st (fuel + 1)).2 = [(start, draw)] := by
  have hproc := process_entries_all_tooOld cfg tipo lb hlb (respond start draw) st 0 hall
  rw [crawl_endpoint]
  rw [if_neg hne]
  by_cases hl : limitHit cfg.limit
      (process_entries cfg tipo (respond start draw) st 0).1.records.length = true
  · rw [if_pos hl]
  · rw [if_neg hl]
    have hcond : (cfg.effectiveStart.isSome &&
        decide ((process_entries cfg tipo (respond start draw) st 0).2.1 =
          (respond start draw).length)) = true := by
      rw [hproc]
      simp [hlb]
    rw [if_pos hcond]

/-- C4 witness: on a page of two fresh too-old entries the crawl issues
no further request. -/
theorem C4_witness :
    (crawl_endpoint respAllOld cfgLB (("mueble").data) 100 0 1 ⟨[], []⟩ 3).2 = [(0, 1)] :=
  C4_early_stop respAllOld cfgLB (("mueble").data) 100 0 1 2 ⟨[], []⟩ 20250101
    rfl (by decide) (by decide)

/-- C4 counterexample: page (100, 2) consists exclusively of entries
whose publication date precedes the lower bound 2025-01-01, yet the
orchestration requests the following page (200, 3): the duplicate of the
already-seen code A is skipped before the too-old counter, so the
counter stays below the page size and the early stop does not fire. -/
theorem C4_counterexample :
    cfgLB.effectiveStart = some 20250101 ∧
    (respondC4 100 2).all
      (fun e => match entryDateKey e with
        | some dk => decide (dk < 20250101)
        | none => false) = true ∧
    (crawl_endpoint respondC4 cfgLB (("mueble").data) 100 0 1 ⟨[], []⟩ 5).2 =
      [(0, 1), (100, 2), (200, 3)] := ⟨rfl, by decide, by decide⟩

theorem codeLeB_total : ∀ (a b : List Char), codeLeB a b = true ∨ codeLeB b a = true := by
  intro a
  induction a with
  | nil => intro b; left; rfl
  | cons x xs ih =>
    intro b
    cases b with
    | nil => right; rfl
    | cons y ys =>
      by_cases hxy : x < y
      · left; rw [codeLeB, if_pos hxy]
      · by_cases hyx : y < x
        · right; rw [codeLeB, if_pos hyx]
        · rcases ih ys with h | h
          · left; rw [codeLeB, if_neg hxy, if_neg hyx]; exact h
          · right; rw [codeLeB, if_neg hyx, if_neg hxy]; exact h

theorem codeLeB_trans : ∀ (a b c : List Char),
    codeLeB a b = true → codeLeB b c = true → codeLeB a c = true := by
  intro a
  induction a with
  | nil => intro b c _ _; rfl
  | cons x xs ih =>
    intro b c hab hbc
    cases b with
    | nil => rw [codeLeB] at hab; exact absurd hab (by simp)
    | cons y ys =>
      cases c with
      | nil => rw [codeLeB] at hbc; exact absurd hbc (by simp)
      | cons z zs =>
        rw [codeLeB] at hab hbc ⊢
        by_cases hxy : x < y
        · by_cases hyz : y < z
          · rw [if_pos (lt_trans hxy hyz)]
          · by_cases hzy : z < y
            · rw [if_neg hyz, if_pos hzy] at hbc
              exact absurd hbc (by simp)
            · have hyz2 : y = z := le_antisymm (not_lt.mp hzy) (not_lt.mp hyz)
              subst hyz2
              rw [if_pos hxy]
        · by_cases hyx : y < x
          · rw [if_neg hxy, if_pos hyx] at hab
            exact absurd hab (by simp)
          · rw [if_neg hxy, if_neg hyx] at hab
            have hxy2 : x = y := le_antisymm (not_lt.mp hyx) (not_lt.mp hxy)
            subst hxy2
            by_cases hxz : x < z
            · rw [if_pos hxz]
            · by_cases hzx : z < x
              · rw [if_neg hxz, if_pos hzx] at hbc
                exact absurd hbc (by simp)
              · rw [if_neg hxz, if_neg hzx] at hbc ⊢
                exact ih ys zs hab hbc

theorem recKeyLe_total (a b : RemateRecord) : recKeyLe a b ∨ recKeyLe b a := by
  rw [recKeyLe, recKeyLe]
  rcases Nat.lt_trichotomy a.fecha_publicacion b.fecha_publicacion with h | h | h
  · left; left; exact h
  · rcases codeLeB_total a.codigo_validacion b.codigo_validacion with hc | hc
    · left; right; exact ⟨h, hc⟩
    · right; right; exact ⟨h.symm, hc⟩
  · right; left; exact h

theorem recKeyLe_trans (a b c : RemateRecord) :
    recKeyLe a b → recKeyLe b c → recKeyLe a c := by
  rw [recKeyLe, recKeyLe, recKeyLe]
  intro hab hbc
  rcases hab with h1 | ⟨h1, h1c⟩
  · rcases hbc with h2 | ⟨h2, _⟩
    · left; exact lt_trans h1 h2
    · left; rw [← h2]; exact h1
  · rcases hbc with h2 | ⟨h2, h2c⟩
    · left; rw [h1]; exact h2
    · right; exact ⟨h1.trans h2, codeLeB_trans _ _ _ h1c h2c⟩

/-- C10: before being printed and persisted, the collected records of a
run are sorted in descending order of the pair (publication date,
validation code): the sorted list is a permutation of the collected
records, and along it every later record compares at most equal to every
earlier one under the lexicographic key, so the consumer always receives
newest-publication-first with ties broken by validation code descending. -/
theorem C10_output_sorted (respond : List Char → Nat → Nat → List Entry)
    (cfg : CrawlConfig) (L fuel : Nat) :
    List.Sorted recDesc (sort_records (crawl_run respond cfg L fuel).records) ∧
    List.Perm (sort_records (crawl_run respond cfg L fuel).records)
      (crawl_run respond cfg L fuel).records := by
  haveI : IsTotal RemateRecord recDesc := ⟨fun a b => recKeyLe_total b a⟩
  haveI : IsTrans RemateRecord recDesc :=
    ⟨fun a b c hab hbc => recKeyLe_trans c b a hbc hab⟩
  exact ⟨List.sorted_insertionSort recDesc _, List.perm_insertionSort recDesc _⟩

end Rematierras
